import Mathlib

/-!
Verification of the `gh-uploader` server (`src/server.js`).

The repository holds two variants of the same Express server, concatenated
in one file.  Each variant exposes a `POST /upload` handler that takes a
multipart request (token / owner / repo / branch / basePath / message plus
a list of files) and publishes the files to a remote GitHub repository as a
single commit through six Octokit calls: `getRef`, `getCommit`, one
`createBlob` per admitted file, `createTree`, `createCommit`, `updateRef`.

We embed the handler shallowly: the remote API is an oracle
`ApiCall → Except GhError String` (each call returns the one sha the
handler extracts from its response, or throws), and the handler is a pure
function returning the HTTP response together with the ordered trace of
remote calls it performed.
-/

namespace GhUploader

deriving instance DecidableEq for Except

/-! ### JavaScript string primitives, over the character list -/

/-- Whitespace class used by JS `String.prototype.trim`. -/
def jsIsWs (c : Char) : Bool :=
  c = ' ' || c = '\t' || c = '\n' || c = '\r' || c = '\x0b' || c = '\x0c'

/-- JS `s.trim()`. -/
def jsTrim (s : String) : String :=
  String.mk (((s.data.dropWhile jsIsWs).reverse.dropWhile jsIsWs).reverse)

/-- JS `x || d` for string-valued `x` (absent and empty string are falsy). -/
def jsOr (o : Option String) (d : String) : String :=
  match o with
  | some s => if s = "" then d else s
  | none => d

/-- Tests whether `pat` is a leading segment of `l`. -/
def listIsPre : List Char → List Char → Bool
  | [], _ => true
  | _ :: _, [] => false
  | a :: as, b :: bs => a == b && listIsPre as bs

/-- Tests whether `pat` occurs contiguously inside `l`. -/
def listIsSub (pat : List Char) : List Char → Bool
  | [] => listIsPre pat []
  | c :: t => listIsPre pat (c :: t) || listIsSub pat t

/-- JS `s.startsWith(pat)`. -/
def jsStartsWith (s pat : String) : Bool := listIsPre pat.data s.data

/-- JS `s.includes(pat)`. -/
def jsIncludes (s pat : String) : Bool := listIsSub pat.data s.data

/-- JS `s.replace(/\\/g, "/")`: the pattern is a single character, so this is
a character map. -/
def jsReplaceBackslash (s : String) : String :=
  String.mk (s.data.map fun c => if c = '\\' then '/' else c)

/-- JS `s.replace(/^\/+/, "")`. -/
def stripLeadingSlashes (s : String) : String :=
  String.mk (s.data.dropWhile fun c => c = '/')

/-- JS `s.replace(/\/?$/, "/")`: leaves `s` alone when it already ends in a
slash, otherwise appends one. -/
def ensureTrailingSlash (s : String) : String :=
  if s.data.getLast? = some '/' then s else s ++ "/"

/-! ### Base64 (node `Buffer.prototype.toString("base64")`) -/

def b64Alphabet : List Char :=
  "ABCDEFGHIJKLMNOPQRSTUVWXYZabcdefghijklmnopqrstuvwxyz0123456789+/".data

def b64Char (n : Nat) : Char := b64Alphabet.getD n 'A'

def b64Chunks : List Nat → List Char
  | [] => []
  | [a] =>
    [b64Char (a % 256 / 4), b64Char (a % 4 * 16), '=', '=']
  | [a, b] =>
    [b64Char (a % 256 / 4), b64Char (a % 4 * 16 + b % 256 / 16),
     b64Char (b % 16 * 4), '=']
  | a :: b :: c :: rest =>
    b64Char (a % 256 / 4) :: b64Char (a % 4 * 16 + b % 256 / 16) ::
    b64Char (b % 16 * 4 + c % 256 / 64) :: b64Char (c % 64) :: b64Chunks rest

def bufferToBase64 (bs : List Nat) : String := String.mk (b64Chunks bs)

/-! ### Data model -/

/-- A multer file: `originalname` may be absent, `buffer` holds the bytes. -/
structure UFile where
  originalname : Option String
  buffer : List Nat
deriving DecidableEq

/-- One entry of the `tree` array passed to `createTree`. -/
structure TreeEntry where
  path : String
  mode : String
  type : String
  sha : String
deriving DecidableEq

/-- A remote (Octokit) API call, with the arguments the handler passes. -/
inductive ApiCall where
  | getRef (owner repo ref : String)
  | getCommit (owner repo commitSha : String)
  | createBlob (owner repo content encoding : String)
  | createTree (owner repo baseTree : String) (entries : List TreeEntry)
  | createCommit (owner repo message treeSha : String) (parents : List String)
  | updateRef (owner repo ref sha : String)
deriving DecidableEq

/-- An exception escaping a remote call: `status` is `e?.status`, `code` is
`e?.code`, `message` is `e?.message`, `ghMessage` is
`e?.response?.data?.message`, and `asString` is JS `String(e)`. -/
structure GhError where
  status : Option Int
  code : Option String
  message : Option String
  ghMessage : Option String
  asString : String
deriving DecidableEq

/-- The JSON response the handler sends (plus its HTTP status). -/
inductive Response where
  | err (status : Int) (code : String) (message : String)
  | errSkipped (status : Int) (code : String) (message : String)
      (skipped : List String)
  | uploadFailed (status : Int) (message : String) (ghStatus : Option Int)
      (ghMessage : Option String)
  | success (commit : String) (uploaded : Nat) (skipped : List String)
      (note : Option String)
deriving DecidableEq

def Response.statusOf : Response → Int
  | .err s _ _ => s
  | .errSkipped s _ _ _ => s
  | .uploadFailed s _ _ _ => s
  | .success _ _ _ _ => 200

/-- The request body fields (absent field = `none`) and the file list. -/
structure UploadRequest where
  token : Option String
  owner : Option String
  repo : Option String
  branch : Option String
  basePath : Option String
  message : Option String
  files : List UFile
deriving DecidableEq

/-- JS `String(req.body.token || "").trim()`. -/
def reqToken (r : UploadRequest) : String := jsTrim (jsOr r.token "")

def reqOwner (r : UploadRequest) : String := jsTrim (jsOr r.owner "")

def reqRepo (r : UploadRequest) : String := jsTrim (jsOr r.repo "")

/-- JS `String(req.body.branch || "main").trim()`. -/
def reqBranch (r : UploadRequest) : String := jsTrim (jsOr r.branch "main")

def reqBasePathRaw (r : UploadRequest) : String := jsTrim (jsOr r.basePath "")

/-- JS `basePathRaw ? basePathRaw.replace(/^\/+/, "").replace(/\/?$/, "/") : ""`. -/
def reqBasePath (r : UploadRequest) : String :=
  if reqBasePathRaw r = "" then ""
  else ensureTrailingSlash (stripLeadingSlashes (reqBasePathRaw r))

/-- JS `String(req.body.message || "Upload via web uploader").trim()`. -/
def reqMessage (r : UploadRequest) : String :=
  jsTrim (jsOr r.message "Upload via web uploader")

/-- JS `(f.originalname || "file").replace(/\\/g, "/")`. -/
def normName (f : UFile) : String := jsReplaceBackslash (jsOr f.originalname "file")

/-- Skip condition of the first server variant. -/
def isSensitive1 (name : String) : Bool :=
  name == ".env" || jsStartsWith name "session" ||
  jsIncludes name "auth_info" || name == "credentials.json"

/-- Skip condition of the second server variant (adds a redundant
`startsWith("auth_info")` test). -/
def isSensitive2 (name : String) : Bool :=
  name == ".env" || jsStartsWith name "session" ||
  jsStartsWith name "auth_info" || jsIncludes name "auth_info" ||
  name == "credentials.json"

/-- The remote service: each call yields the sha the handler reads from the
response, or throws. -/
abbrev Remote := ApiCall → Except GhError String

/-- The `createBlob` call the handler issues for file `f`. -/
def blobCall (owner repo : String) (f : UFile) : ApiCall :=
  .createBlob owner repo (bufferToBase64 f.buffer) "base64"

def entrySha (r : Except GhError String) : String :=
  match r with
  | .ok s => s
  | .error _ => ""

/-- The tree entry the handler pushes for an admitted file `f`. -/
def entryOf (remote : Remote) (owner repo basePath : String) (f : UFile) :
    TreeEntry :=
  { path := basePath ++ normName f, mode := "100644", type := "blob",
    sha := entrySha (remote (blobCall owner repo f)) }

/-- The `for (const f of files)` loop of the first variant: builds the tree
entries and the skipped names, recording the blob calls; a throwing blob
call aborts the loop with the calls made so far. -/
def processFiles1 (remote : Remote) (owner repo basePath : String) :
    List UFile → Except (GhError × List ApiCall)
      (List TreeEntry × List String × List ApiCall)
  | [] => .ok ([], [], [])
  | f :: fs =>
    if isSensitive1 (normName f) then
      match processFiles1 remote owner repo basePath fs with
      | .error etr => .error etr
      | .ok (tree, skipped, tr) => .ok (tree, normName f :: skipped, tr)
    else
      match remote (blobCall owner repo f) with
      | .error e => .error (e, [blobCall owner repo f])
      | .ok sha =>
        match processFiles1 remote owner repo basePath fs with
        | .error (e, tr) => .error (e, blobCall owner repo f :: tr)
        | .ok (tree, skipped, tr) =>
          .ok ({ path := basePath ++ normName f, mode := "100644",
                 type := "blob", sha := sha } :: tree,
               skipped, blobCall owner repo f :: tr)

/-- Same loop in the second variant (only the skip condition differs). -/
def processFiles2 (remote : Remote) (owner repo basePath : String) :
    List UFile → Except (GhError × List ApiCall)
      (List TreeEntry × List String × List ApiCall)
  | [] => .ok ([], [], [])
  | f :: fs =>
    if isSensitive2 (normName f) then
      match processFiles2 remote owner repo basePath fs with
      | .error etr => .error etr
      | .ok (tree, skipped, tr) => .ok (tree, normName f :: skipped, tr)
    else
      match remote (blobCall owner repo f) with
      | .error e => .error (e, [blobCall owner repo f])
      | .ok sha =>
        match processFiles2 remote owner repo basePath fs with
        | .error (e, tr) => .error (e, blobCall owner repo f :: tr)
        | .ok (tree, skipped, tr) =>
          .ok ({ path := basePath ++ normName f, mode := "100644",
                 type := "blob", sha := sha } :: tree,
               skipped, blobCall owner repo f :: tr)

/-- JS `status >= 400 && status < 600 ? status : 500`. -/
def forwardedStatus (s : Int) : Int := if 400 ≤ s ∧ s < 600 then s else 500

/-- JS `e?.status || 500` (a `0` status is falsy). -/
def jsStatusOr500 (o : Option Int) : Int :=
  match o with
  | some s => if s = 0 then 500 else s
  | none => 500

/-- The `catch` block of the first variant. -/
def catchResponse1 (e : GhError) : Response :=
  if e.code = some "LIMIT_FILE_SIZE" then
    .err 413 "LIMIT_FILE_SIZE" "Ada file lebih dari 100MB. Tolong kecilin dulu."
  else
    .uploadFailed (forwardedStatus (jsStatusOr500 e.status))
      (jsOr e.message "Upload gagal (cek permission token / branch / repo).")
      e.status e.ghMessage

/-- The `catch` block of the second variant. -/
def catchResponse2 (e : GhError) : Response :=
  .uploadFailed (forwardedStatus (jsStatusOr500 e.status))
    (jsOr e.message e.asString) e.status e.ghMessage

/-- The `POST /upload` handler of the first variant, as a pure function of
the remote oracle and the request; also returns the ordered trace of remote
calls performed. -/
def handleUpload1 (remote : Remote) (req : UploadRequest) :
    Response × List ApiCall :=
  let token := reqToken req
  let owner := reqOwner req
  let repo := reqRepo req
  let branch := reqBranch req
  let basePath := reqBasePath req
  let message := reqMessage req
  if token == "" || owner == "" || repo == "" then
    (.err 400 "MISSING_FIELDS" "Token, Owner, dan Repo wajib diisi.", [])
  else if req.files.isEmpty then
    (.err 400 "NO_FILES" "Lu belum milih file apa pun.", [])
  else
    let refCall := ApiCall.getRef owner repo ("heads/" ++ branch)
    match remote refCall with
    | .error e => (catchResponse1 e, [refCall])
    | .ok latestCommitSha =>
      let commitCall := ApiCall.getCommit owner repo latestCommitSha
      match remote commitCall with
      | .error e => (catchResponse1 e, [refCall, commitCall])
      | .ok baseTreeSha =>
        match processFiles1 remote owner repo basePath req.files with
        | .error (e, tr) => (catchResponse1 e, refCall :: commitCall :: tr)
        | .ok (tree, skipped, tr) =>
          if tree.isEmpty then
            (.errSkipped 400 "ALL_SKIPPED"
               "Semua file ke-skip (karena dianggap sensitif)." skipped,
             refCall :: commitCall :: tr)
          else
            let treeCall := ApiCall.createTree owner repo baseTreeSha tree
            match remote treeCall with
            | .error e =>
              (catchResponse1 e, refCall :: commitCall :: (tr ++ [treeCall]))
            | .ok newTreeSha =>
              let commitCall2 :=
                ApiCall.createCommit owner repo message newTreeSha
                  [latestCommitSha]
              match remote commitCall2 with
              | .error e =>
                (catchResponse1 e,
                 refCall :: commitCall :: (tr ++ [treeCall, commitCall2]))
              | .ok newCommitSha =>
                let updCall :=
                  ApiCall.updateRef owner repo ("heads/" ++ branch) newCommitSha
                match remote updCall with
                | .error e =>
                  (catchResponse1 e,
                   refCall :: commitCall ::
                     (tr ++ [treeCall, commitCall2, updCall]))
                | .ok _ =>
                  (.success newCommitSha tree.length skipped
                     (some "Kalau ada yang ke-skip, biasanya .env/session/auth_info. Itu emang sengaja biar aman."),
                   refCall :: commitCall ::
                     (tr ++ [treeCall, commitCall2, updCall]))

/-- A multer error delivered to the second variant's upload callback. -/
structure MulterError where
  code : Option String
  message : String
deriving DecidableEq

/-- The `POST /upload` handler of the second variant. -/
def handleUpload2 (remote : Remote) (merr : Option MulterError)
    (req : UploadRequest) : Response × List ApiCall :=
  match merr with
  | some e =>
    if e.code = some "LIMIT_FILE_SIZE" then
      (.err 413 "LIMIT_FILE_SIZE" "Ada file > 100MB, ditolak.", [])
    else if e.code = some "LIMIT_FILE_COUNT" then
      (.err 413 "LIMIT_FILE_COUNT" "Jumlah file kebanyakan.", [])
    else
      (.err 400 "MULTER_ERROR" e.message, [])
  | none =>
    let token := reqToken req
    let owner := reqOwner req
    let repo := reqRepo req
    let branch := reqBranch req
    let basePath := reqBasePath req
    let message := reqMessage req
    if token == "" || owner == "" || repo == "" then
      (.err 400 "MISSING_FIELDS" "Token/Owner/Repo wajib diisi.", [])
    else if req.files.isEmpty then
      (.err 400 "NO_FILES" "Pilih minimal 1 file.", [])
    else
      let refCall := ApiCall.getRef owner repo ("heads/" ++ branch)
      match remote refCall with
      | .error e => (catchResponse2 e, [refCall])
      | .ok latestCommitSha =>
        let commitCall := ApiCall.getCommit owner repo latestCommitSha
        match remote commitCall with
        | .error e => (catchResponse2 e, [refCall, commitCall])
        | .ok baseTreeSha =>
          match processFiles2 remote owner repo basePath req.files with
          | .error (e, tr) => (catchResponse2 e, refCall :: commitCall :: tr)
          | .ok (tree, skipped, tr) =>
            if tree.isEmpty then
              (.errSkipped 400 "ALL_SKIPPED"
                 "Semua file ke-skip (misal .env/session/auth_info)." skipped,
               refCall :: commitCall :: tr)
            else
              let treeCall := ApiCall.createTree owner repo baseTreeSha tree
              match remote treeCall with
              | .error e =>
                (catchResponse2 e, refCall :: commitCall :: (tr ++ [treeCall]))
              | .ok newTreeSha =>
                let commitCall2 :=
                  ApiCall.createCommit owner repo message newTreeSha
                    [latestCommitSha]
                match remote commitCall2 with
                | .error e =>
                  (catchResponse2 e,
                   refCall :: commitCall :: (tr ++ [treeCall, commitCall2]))
                | .ok newCommitSha =>
                  let updCall :=
                    ApiCall.updateRef owner repo ("heads/" ++ branch)
                      newCommitSha
                  match remote updCall with
                  | .error e =>
                    (catchResponse2 e,
                     refCall :: commitCall ::
                       (tr ++ [treeCall, commitCall2, updCall]))
                  | .ok _ =>
                    (.success newCommitSha tree.length skipped none,
                     refCall :: commitCall ::
                       (tr ++ [treeCall, commitCall2, updCall]))

/-! ### Derived notions used in the theorem statements -/

/-- The files the loop admits (one blob / tree entry each). -/
def keptFiles (sensitive : String → Bool) (files : List UFile) : List UFile :=
  files.filter fun f => !sensitive (normName f)

/-- The normalized names the loop skips, in order. -/
def skippedNames (sensitive : String → Bool) (files : List UFile) :
    List String :=
  (files.map normName).filter sensitive

/-- A response produced by the first variant's `catch` block. -/
def isCatchResp1 : Response → Bool
  | .uploadFailed _ _ _ _ => true
  | .err _ c _ => c == "LIMIT_FILE_SIZE"
  | _ => false

/-- A response produced by the second variant's `catch` block. -/
def isCatchResp2 : Response → Bool
  | .uploadFailed _ _ _ _ => true
  | _ => false

/-- The server handles a sequence of requests; the handler closes over no
mutable server-level binding, so each request is served from the request
alone and the oracle. -/
def serveAll (remote : Remote) (reqs : List UploadRequest) :
    List (Response × List ApiCall) :=
  reqs.map (handleUpload1 remote)

end GhUploader

namespace GhUploader



/-! ### Concrete inputs used by witnesses and counterexamples -/

def demoRemote : Remote := fun _ => .ok "s"

def demoReq : UploadRequest :=
  { token := some "t", owner := some "o", repo := some "r", branch := none,
    basePath := none, message := none,
    files := [{ originalname := some "a.txt", buffer := [] }] }

def demoNote : String :=
  "Kalau ada yang ke-skip, biasanya .env/session/auth_info. Itu emang sengaja biar aman."

def demoTrace : List ApiCall :=
  [.getRef "o" "r" "heads/main", .getCommit "o" "r" "s",
   .createBlob "o" "r" "" "base64",
   .createTree "o" "r" "s" [⟨"a.txt", "100644", "blob", "s"⟩],
   .createCommit "o" "r" "Upload via web uploader" "s" ["s"],
   .updateRef "o" "r" "heads/main" "s"]

def limitError : GhError :=
  { status := none, code := some "LIMIT_FILE_SIZE", message := some "boom",
    ghMessage := none, asString := "Error: boom" }

def limitRemote : Remote := fun _ => .error limitError

def notFoundError : GhError :=
  { status := some 404, code := none, message := some "Not Found",
    ghMessage := some "Not Found", asString := "HttpError: Not Found" }

def errRemote : Remote := fun _ => .error notFoundError

def demoReqMissing : UploadRequest :=
  { token := none, owner := some "o", repo := some "r", branch := none,
    basePath := none, message := none, files := [] }

def demoReqNoFiles : UploadRequest :=
  { token := some "t", owner := some "o", repo := some "r", branch := none,
    basePath := none, message := none, files := [] }

def demoReqAllSkipped : UploadRequest :=
  { token := some "t", owner := some "o", repo := some "r", branch := none,
    basePath := none, message := none,
    files := [{ originalname := some ".env", buffer := [] }] }

/-- The admitted family of filenames "a", "aa", "aaa", ... used to refute the
finite-allowlist reading. -/
def allA (k : Nat) : String := String.mk (List.replicate (k + 1) 'a')

def demoFilesMixed : List UFile :=
  [{ originalname := some ".env", buffer := [] },
   { originalname := some "a.txt", buffer := [] }]

theorem processFiles1_ok (remote : Remote) (o r bp : String)
    (files : List UFile) (tree : List TreeEntry) (skipped : List String)
    (tr : List ApiCall)
    (h : processFiles1 remote o r bp files = .ok (tree, skipped, tr)) :
    tree = (keptFiles isSensitive1 files).map (entryOf remote o r bp) ∧
    skipped = skippedNames isSensitive1 files ∧
    tr = (keptFiles isSensitive1 files).map (blobCall o r) ∧
    ∀ f ∈ keptFiles isSensitive1 files,
      (remote (blobCall o r f)).isOk = true := by
  induction files generalizing tree skipped tr with
  | nil =>
    simp only [processFiles1, Except.ok.injEq, Prod.mk.injEq] at h
    obtain ⟨h1, h2, h3⟩ := h
    subst h1; subst h2; subst h3
    simp [keptFiles, skippedNames]
  | cons f fs ih =>
    simp only [processFiles1] at h
    split at h
    next hs =>
      split at h
      next => exact absurd h (by simp)
      next t s tr2 heq =>
        simp only [Except.ok.injEq, Prod.mk.injEq] at h
        obtain ⟨h1, h2, h3⟩ := h
        subst h1; subst h2; subst h3
        obtain ⟨ih1, ih2, ih3, ih4⟩ := ih _ _ _ heq
        refine ⟨?_, ?_, ?_, ?_⟩ <;>
          simp [keptFiles, skippedNames, List.filter_cons, hs] at *
        · exact ih1
        · exact ih2
        · exact ih3
        · exact ih4
    next hs =>
      split at h
      next => exact absurd h (by simp)
      next sha hblob =>
        split at h
        next => exact absurd h (by simp)
        next t s tr2 heq =>
          simp only [Except.ok.injEq, Prod.mk.injEq] at h
          obtain ⟨h1, h2, h3⟩ := h
          subst h1; subst h2; subst h3
          obtain ⟨ih1, ih2, ih3, ih4⟩ := ih _ _ _ heq
          constructor
          · simp [keptFiles, List.filter_cons, hs, entryOf, entrySha, hblob]
            exact ih1
          constructor
          · simp [skippedNames, List.filter_cons, hs]
            exact ih2
          constructor
          · simp [keptFiles, List.filter_cons, hs]
            exact ih3
          · intro g hg
            simp [keptFiles, List.filter_cons, hs] at hg
            rcases hg with hg | hg
            · subst hg; simp [hblob, Except.isOk, Except.toBool]
            · exact ih4 g (by simp [keptFiles, List.mem_filter, hg.1, hg.2])

theorem processFiles2_ok (remote : Remote) (o r bp : String)
    (files : List UFile) (tree : List TreeEntry) (skipped : List String)
    (tr : List ApiCall)
    (h : processFiles2 remote o r bp files = .ok (tree, skipped, tr)) :
    tree = (keptFiles isSensitive2 files).map (entryOf remote o r bp) ∧
    skipped = skippedNames isSensitive2 files ∧
    tr = (keptFiles isSensitive2 files).map (blobCall o r) ∧
    ∀ f ∈ keptFiles isSensitive2 files,
      (remote (blobCall o r f)).isOk = true := by
  induction files generalizing tree skipped tr with
  | nil =>
    simp only [processFiles2, Except.ok.injEq, Prod.mk.injEq] at h
    obtain ⟨h1, h2, h3⟩ := h
    subst h1; subst h2; subst h3
    simp [keptFiles, skippedNames]
  | cons f fs ih =>
    simp only [processFiles2] at h
    split at h
    next hs =>
      split at h
      next => exact absurd h (by simp)
      next t s tr2 heq =>
        simp only [Except.ok.injEq, Prod.mk.injEq] at h
        obtain ⟨h1, h2, h3⟩ := h
        subst h1; subst h2; subst h3
        obtain ⟨ih1, ih2, ih3, ih4⟩ := ih _ _ _ heq
        refine ⟨?_, ?_, ?_, ?_⟩ <;>
          simp [keptFiles, skippedNames, List.filter_cons, hs] at *
        · exact ih1
        · exact ih2
        · exact ih3
        · exact ih4
    next hs =>
      split at h
      next => exact absurd h (by simp)
      next sha hblob =>
        split at h
        next => exact absurd h (by simp)
        next t s tr2 heq =>
          simp only [Except.ok.injEq, Prod.mk.injEq] at h
          obtain ⟨h1, h2, h3⟩ := h
          subst h1; subst h2; subst h3
          obtain ⟨ih1, ih2, ih3, ih4⟩ := ih _ _ _ heq
          constructor
          · simp [keptFiles, List.filter_cons, hs, entryOf, entrySha, hblob]
            exact ih1
          constructor
          · simp [skippedNames, List.filter_cons, hs]
            exact ih2
          constructor
          · simp [keptFiles, List.filter_cons, hs]
            exact ih3
          · intro g hg
            simp [keptFiles, List.filter_cons, hs] at hg
            rcases hg with hg | hg
            · subst hg; simp [hblob, Except.isOk, Except.toBool]
            · exact ih4 g (by simp [keptFiles, List.mem_filter, hg.1, hg.2])

theorem processFiles1_error (remote : Remote) (o r bp : String)
    (files : List UFile) (e : GhError) (tr : List ApiCall)
    (h : processFiles1 remote o r bp files = .error (e, tr)) :
    ∃ tr0 c, tr = tr0 ++ [c] ∧ remote c = .error e := by
  induction files generalizing tr with
  | nil => simp [processFiles1] at h
  | cons f fs ih =>
    simp only [processFiles1] at h
    split at h
    next hs =>
      split at h
      next etr heq =>
        simp only [Except.error.injEq] at h
        subst h
        exact ih _ heq
      next => exact absurd h (by simp)
    next hs =>
      split at h
      next e2 hblob =>
        simp only [Except.error.injEq, Prod.mk.injEq] at h
        obtain ⟨h1, h2⟩ := h
        subst h1; subst h2
        exact ⟨[], blobCall o r f, by simp, hblob⟩
      next sha hblob =>
        split at h
        next e2 tr2 heq =>
          simp only [Except.error.injEq, Prod.mk.injEq] at h
          obtain ⟨h1, h2⟩ := h
          subst h1; subst h2
          obtain ⟨tr0, c, htr, hc⟩ := ih _ heq
          exact ⟨blobCall o r f :: tr0, c, by simp [htr], hc⟩
        next => exact absurd h (by simp)

theorem processFiles2_error (remote : Remote) (o r bp : String)
    (files : List UFile) (e : GhError) (tr : List ApiCall)
    (h : processFiles2 remote o r bp files = .error (e, tr)) :
    ∃ tr0 c, tr = tr0 ++ [c] ∧ remote c = .error e := by
  induction files generalizing tr with
  | nil => simp [processFiles2] at h
  | cons f fs ih =>
    simp only [processFiles2] at h
    split at h
    next hs =>
      split at h
      next etr heq =>
        simp only [Except.error.injEq] at h
        subst h
        exact ih _ heq
      next => exact absurd h (by simp)
    next hs =>
      split at h
      next e2 hblob =>
        simp only [Except.error.injEq, Prod.mk.injEq] at h
        obtain ⟨h1, h2⟩ := h
        subst h1; subst h2
        exact ⟨[], blobCall o r f, by simp, hblob⟩
      next sha hblob =>
        split at h
        next e2 tr2 heq =>
          simp only [Except.error.injEq, Prod.mk.injEq] at h
          obtain ⟨h1, h2⟩ := h
          subst h1; subst h2
          obtain ⟨tr0, c, htr, hc⟩ := ih _ heq
          exact ⟨blobCall o r f :: tr0, c, by simp [htr], hc⟩
        next => exact absurd h (by simp)

theorem processFiles1_all_skipped (remote : Remote) (o r bp : String)
    (files : List UFile)
    (h : ∀ f ∈ files, isSensitive1 (normName f) = true) :
    processFiles1 remote o r bp files = .ok ([], files.map normName, []) := by
  induction files with
  | nil => simp [processFiles1]
  | cons f fs ih =>
    have hf := h f (by simp)
    simp only [processFiles1, hf, if_true]
    rw [ih fun g hg => h g (by simp [hg])]
    simp

theorem processFiles2_all_skipped (remote : Remote) (o r bp : String)
    (files : List UFile)
    (h : ∀ f ∈ files, isSensitive2 (normName f) = true) :
    processFiles2 remote o r bp files = .ok ([], files.map normName, []) := by
  induction files with
  | nil => simp [processFiles2]
  | cons f fs ih =>
    have hf := h f (by simp)
    simp only [processFiles2, hf, if_true]
    rw [ih fun g hg => h g (by simp [hg])]
    simp

theorem catchResponse1_ne_success (e : GhError) (c : String) (u : Nat)
    (sk : List String) (note : Option String) :
    catchResponse1 e ≠ Response.success c u sk note := by
  unfold catchResponse1
  split <;> simp

theorem catchResponse2_ne_success (e : GhError) (c : String) (u : Nat)
    (sk : List String) (note : Option String) :
    catchResponse2 e ≠ Response.success c u sk note := by
  unfold catchResponse2
  simp

theorem handleUpload1_ok (remote : Remote) (req : UploadRequest)
    (c : String) (u : Nat) (sk : List String) (note : Option String)
    (trace : List ApiCall)
    (h : handleUpload1 remote req = (.success c u sk note, trace)) :
    ∃ latest baseTree newTreeSha,
      remote (.getRef (reqOwner req) (reqRepo req)
        ("heads/" ++ reqBranch req)) = .ok latest ∧
      remote (.getCommit (reqOwner req) (reqRepo req) latest) = .ok baseTree ∧
      (∀ f ∈ keptFiles isSensitive1 req.files,
        (remote (blobCall (reqOwner req) (reqRepo req) f)).isOk = true) ∧
      remote (.createTree (reqOwner req) (reqRepo req) baseTree
        ((keptFiles isSensitive1 req.files).map
          (entryOf remote (reqOwner req) (reqRepo req) (reqBasePath req)))) =
        .ok newTreeSha ∧
      remote (.createCommit (reqOwner req) (reqRepo req) (reqMessage req)
        newTreeSha [latest]) = .ok c ∧
      (remote (.updateRef (reqOwner req) (reqRepo req)
        ("heads/" ++ reqBranch req) c)).isOk = true ∧
      u = (keptFiles isSensitive1 req.files).length ∧
      sk = skippedNames isSensitive1 req.files ∧
      keptFiles isSensitive1 req.files ≠ [] ∧
      trace =
        .getRef (reqOwner req) (reqRepo req) ("heads/" ++ reqBranch req) ::
        .getCommit (reqOwner req) (reqRepo req) latest ::
        ((keptFiles isSensitive1 req.files).map
            (blobCall (reqOwner req) (reqRepo req)) ++
         [.createTree (reqOwner req) (reqRepo req) baseTree
            ((keptFiles isSensitive1 req.files).map
              (entryOf remote (reqOwner req) (reqRepo req) (reqBasePath req))),
          .createCommit (reqOwner req) (reqRepo req) (reqMessage req)
            newTreeSha [latest],
          .updateRef (reqOwner req) (reqRepo req) ("heads/" ++ reqBranch req)
            c]) := by
  simp only [handleUpload1] at h
  split at h
  · simp at h
  · split at h
    · simp at h
    · split at h
      · rename_i e heq
        exact absurd (congrArg Prod.fst h) (catchResponse1_ne_success e c u sk note)
      · rename_i latest href
        split at h
        · rename_i e heq
          exact absurd (congrArg Prod.fst h) (catchResponse1_ne_success e c u sk note)
        · rename_i baseTree hcom
          split at h
          · rename_i e tr heq
            exact absurd (congrArg Prod.fst h) (catchResponse1_ne_success e c u sk note)
          · rename_i tree skipped tr heq
            split at h
            · simp at h
            · rename_i hne
              split at h
              · rename_i e htree
                exact absurd (congrArg Prod.fst h) (catchResponse1_ne_success e c u sk note)
              · rename_i newTreeSha htree
                split at h
                · rename_i e hcommit
                  exact absurd (congrArg Prod.fst h) (catchResponse1_ne_success e c u sk note)
                · rename_i newCommitSha hcommit
                  split at h
                  · rename_i e hupd
                    exact absurd (congrArg Prod.fst h) (catchResponse1_ne_success e c u sk note)
                  · rename_i x hupd
                    simp only [Prod.mk.injEq, Response.success.injEq] at h
                    obtain ⟨⟨hc, hu, hsk, hnote⟩, htrace⟩ := h
                    obtain ⟨p1, p2, p3, p4⟩ :=
                      processFiles1_ok remote (reqOwner req) (reqRepo req)
                        (reqBasePath req) req.files tree skipped tr heq
                    subst hc; subst hu; subst hsk
                    refine ⟨latest, baseTree, newTreeSha, href, hcom, p4, ?_,
                      hcommit, ?_, ?_, ?_, ?_, ?_⟩
                    · rw [← p1]; exact htree
                    · rw [hupd]; rfl
                    · rw [p1, List.length_map]
                    · exact p2
                    · intro hk
                      rw [p1, hk] at hne
                      simp at hne
                    · rw [← htrace, p1, p3]

theorem handleUpload2_ok (remote : Remote) (merr : Option MulterError)
    (req : UploadRequest)
    (c : String) (u : Nat) (sk : List String) (note : Option String)
    (trace : List ApiCall)
    (h : handleUpload2 remote merr req = (.success c u sk note, trace)) :
    ∃ latest baseTree newTreeSha,
      remote (.getRef (reqOwner req) (reqRepo req)
        ("heads/" ++ reqBranch req)) = .ok latest ∧
      remote (.getCommit (reqOwner req) (reqRepo req) latest) = .ok baseTree ∧
      (∀ f ∈ keptFiles isSensitive2 req.files,
        (remote (blobCall (reqOwner req) (reqRepo req) f)).isOk = true) ∧
      remote (.createTree (reqOwner req) (reqRepo req) baseTree
        ((keptFiles isSensitive2 req.files).map
          (entryOf remote (reqOwner req) (reqRepo req) (reqBasePath req)))) =
        .ok newTreeSha ∧
      remote (.createCommit (reqOwner req) (reqRepo req) (reqMessage req)
        newTreeSha [latest]) = .ok c ∧
      (remote (.updateRef (reqOwner req) (reqRepo req)
        ("heads/" ++ reqBranch req) c)).isOk = true ∧
      u = (keptFiles isSensitive2 req.files).length ∧
      sk = skippedNames isSensitive2 req.files ∧
      keptFiles isSensitive2 req.files ≠ [] ∧
      trace =
        .getRef (reqOwner req) (reqRepo req) ("heads/" ++ reqBranch req) ::
        .getCommit (reqOwner req) (reqRepo req) latest ::
        ((keptFiles isSensitive2 req.files).map
            (blobCall (reqOwner req) (reqRepo req)) ++
         [.createTree (reqOwner req) (reqRepo req) baseTree
            ((keptFiles isSensitive2 req.files).map
              (entryOf remote (reqOwner req) (reqRepo req) (reqBasePath req))),
          .createCommit (reqOwner req) (reqRepo req) (reqMessage req)
            newTreeSha [latest],
          .updateRef (reqOwner req) (reqRepo req) ("heads/" ++ reqBranch req)
            c]) := by
  cases merr with
  | some e =>
    simp only [handleUpload2] at h
    split at h
    · simp at h
    · split at h
      · simp at h
      · simp at h
  | none =>
  simp only [handleUpload2] at h
  split at h
  · simp at h
  · split at h
    · simp at h
    · split at h
      · rename_i e heq
        exact absurd (congrArg Prod.fst h) (catchResponse2_ne_success e c u sk note)
      · rename_i latest href
        split at h
        · rename_i e heq
          exact absurd (congrArg Prod.fst h) (catchResponse2_ne_success e c u sk note)
        · rename_i baseTree hcom
          split at h
          · rename_i e tr heq
            exact absurd (congrArg Prod.fst h) (catchResponse2_ne_success e c u sk note)
          · rename_i tree skipped tr heq
            split at h
            · simp at h
            · rename_i hne
              split at h
              · rename_i e htree
                exact absurd (congrArg Prod.fst h) (catchResponse2_ne_success e c u sk note)
              · rename_i newTreeSha htree
                split at h
                · rename_i e hcommit
                  exact absurd (congrArg Prod.fst h) (catchResponse2_ne_success e c u sk note)
                · rename_i newCommitSha hcommit
                  split at h
                  · rename_i e hupd
                    exact absurd (congrArg Prod.fst h) (catchResponse2_ne_success e c u sk note)
                  · rename_i x hupd
                    simp only [Prod.mk.injEq, Response.success.injEq] at h
                    obtain ⟨⟨hc, hu, hsk, hnote⟩, htrace⟩ := h
                    obtain ⟨p1, p2, p3, p4⟩ :=
                      processFiles2_ok remote (reqOwner req) (reqRepo req)
                        (reqBasePath req) req.files tree skipped tr heq
                    subst hc; subst hu; subst hsk
                    refine ⟨latest, baseTree, newTreeSha, href, hcom, p4, ?_,
                      hcommit, ?_, ?_, ?_, ?_, ?_⟩
                    · rw [← p1]; exact htree
                    · rw [hupd]; rfl
                    · rw [p1, List.length_map]
                    · exact p2
                    · intro hk
                      rw [p1, hk] at hne
                      simp at hne
                    · rw [← htrace, p1, p3]

theorem statusOf_catch1 (e : GhError) :
    (catchResponse1 e).statusOf =
      if e.code = some "LIMIT_FILE_SIZE" then 413
      else forwardedStatus (jsStatusOr500 e.status) := by
  unfold catchResponse1
  split
  · rename_i hc; simp [Response.statusOf, hc]
  · rename_i hc; simp [Response.statusOf, hc]

theorem statusOf_catch2 (e : GhError) :
    (catchResponse2 e).statusOf = forwardedStatus (jsStatusOr500 e.status) := by
  rfl

theorem handleUpload1_catch (remote : Remote) (req : UploadRequest)
    (resp : Response) (trace : List ApiCall)
    (h : handleUpload1 remote req = (resp, trace))
    (hc : isCatchResp1 resp = true) :
    ∃ e pre cl, trace = pre ++ [cl] ∧ remote cl = .error e ∧
      resp = catchResponse1 e := by
  simp only [handleUpload1] at h
  split at h
  · injection h with h1 h2
    subst h1
    simp [isCatchResp1] at hc
  · split at h
    · injection h with h1 h2
      subst h1
      simp [isCatchResp1] at hc
    · split at h
      · rename_i e heq
        injection h with h1 h2
        subst h1; subst h2
        exact ⟨e, [],
          ApiCall.getRef (reqOwner req) (reqRepo req) ("heads/" ++ reqBranch req),
          rfl, heq, rfl⟩
      · rename_i latest href
        split at h
        · rename_i e heq
          injection h with h1 h2
          subst h1; subst h2
          exact ⟨e,
            [ApiCall.getRef (reqOwner req) (reqRepo req) ("heads/" ++ reqBranch req)],
            ApiCall.getCommit (reqOwner req) (reqRepo req) latest,
            rfl, heq, rfl⟩
        · rename_i baseTree hcom
          split at h
          · rename_i e tr heq
            injection h with h1 h2
            subst h1; subst h2
            obtain ⟨tr0, cl, htr, hcl⟩ :=
              processFiles1_error remote (reqOwner req) (reqRepo req)
                (reqBasePath req) req.files e tr heq
            subst htr
            exact ⟨e,
              ApiCall.getRef (reqOwner req) (reqRepo req) ("heads/" ++ reqBranch req) ::
                ApiCall.getCommit (reqOwner req) (reqRepo req) latest :: tr0,
              cl, by simp, hcl, rfl⟩
          · rename_i tree skipped tr heq
            split at h
            · injection h with h1 h2
              subst h1
              simp [isCatchResp1] at hc
            · rename_i hne
              split at h
              · rename_i e htree
                injection h with h1 h2
                subst h1; subst h2
                exact ⟨e,
                  ApiCall.getRef (reqOwner req) (reqRepo req) ("heads/" ++ reqBranch req) ::
                    ApiCall.getCommit (reqOwner req) (reqRepo req) latest :: tr,
                  ApiCall.createTree (reqOwner req) (reqRepo req) baseTree tree,
                  by simp, htree, rfl⟩
              · rename_i newTreeSha htree
                split at h
                · rename_i e hcommit
                  injection h with h1 h2
                  subst h1; subst h2
                  refine ⟨e,
                    ApiCall.getRef (reqOwner req) (reqRepo req) ("heads/" ++ reqBranch req) ::
                      ApiCall.getCommit (reqOwner req) (reqRepo req) latest ::
                        (tr ++ [ApiCall.createTree (reqOwner req) (reqRepo req) baseTree tree]),
                    ApiCall.createCommit (reqOwner req) (reqRepo req) (reqMessage req)
                      newTreeSha [latest],
                    by simp, hcommit, rfl⟩
                · rename_i newCommitSha hcommit
                  split at h
                  · rename_i e hupd
                    injection h with h1 h2
                    subst h1; subst h2
                    refine ⟨e,
                      ApiCall.getRef (reqOwner req) (reqRepo req) ("heads/" ++ reqBranch req) ::
                        ApiCall.getCommit (reqOwner req) (reqRepo req) latest ::
                          (tr ++ [ApiCall.createTree (reqOwner req) (reqRepo req) baseTree tree,
                            ApiCall.createCommit (reqOwner req) (reqRepo req) (reqMessage req)
                              newTreeSha [latest]]),
                      ApiCall.updateRef (reqOwner req) (reqRepo req) ("heads/" ++ reqBranch req)
                        newCommitSha,
                      by simp, hupd, rfl⟩
                  · rename_i x hupd
                    injection h with h1 h2
                    subst h1
                    simp [isCatchResp1] at hc

theorem handleUpload2_catch (remote : Remote) (merr : Option MulterError)
    (req : UploadRequest)
    (resp : Response) (trace : List ApiCall)
    (h : handleUpload2 remote merr req = (resp, trace))
    (hc : isCatchResp2 resp = true) :
    ∃ e pre cl, trace = pre ++ [cl] ∧ remote cl = .error e ∧
      resp = catchResponse2 e := by
  cases merr with
  | some me =>
    simp only [handleUpload2] at h
    split at h
    · injection h with h1 h2
      subst h1
      simp [isCatchResp2] at hc
    · split at h
      · injection h with h1 h2
        subst h1
        simp [isCatchResp2] at hc
      · injection h with h1 h2
        subst h1
        simp [isCatchResp2] at hc
  | none =>
  simp only [handleUpload2] at h
  split at h
  · injection h with h1 h2
    subst h1
    simp [isCatchResp2] at hc
  · split at h
    · injection h with h1 h2
      subst h1
      simp [isCatchResp2] at hc
    · split at h
      · rename_i e heq
        injection h with h1 h2
        subst h1; subst h2
        exact ⟨e, [],
          ApiCall.getRef (reqOwner req) (reqRepo req) ("heads/" ++ reqBranch req),
          rfl, heq, rfl⟩
      · rename_i latest href
        split at h
        · rename_i e heq
          injection h with h1 h2
          subst h1; subst h2
          exact ⟨e,
            [ApiCall.getRef (reqOwner req) (reqRepo req) ("heads/" ++ reqBranch req)],
            ApiCall.getCommit (reqOwner req) (reqRepo req) latest,
            rfl, heq, rfl⟩
        · rename_i baseTree hcom
          split at h
          · rename_i e tr heq
            injection h with h1 h2
            subst h1; subst h2
            obtain ⟨tr0, cl, htr, hcl⟩ :=
              processFiles2_error remote (reqOwner req) (reqRepo req)
                (reqBasePath req) req.files e tr heq
            subst htr
            exact ⟨e,
              ApiCall.getRef (reqOwner req) (reqRepo req) ("heads/" ++ reqBranch req) ::
                ApiCall.getCommit (reqOwner req) (reqRepo req) latest :: tr0,
              cl, by simp, hcl, rfl⟩
          · rename_i tree skipped tr heq
            split at h
            · injection h with h1 h2
              subst h1
              simp [isCatchResp2] at hc
            · rename_i hne
              split at h
              · rename_i e htree
                injection h with h1 h2
                subst h1; subst h2
                exact ⟨e,
                  ApiCall.getRef (reqOwner req) (reqRepo req) ("heads/" ++ reqBranch req) ::
                    ApiCall.getCommit (reqOwner req) (reqRepo req) latest :: tr,
                  ApiCall.createTree (reqOwner req) (reqRepo req) baseTree tree,
                  by simp, htree, rfl⟩
              · rename_i newTreeSha htree
                split at h
                · rename_i e hcommit
                  injection h with h1 h2
                  subst h1; subst h2
                  refine ⟨e,
                    ApiCall.getRef (reqOwner req) (reqRepo req) ("heads/" ++ reqBranch req) ::
                      ApiCall.getCommit (reqOwner req) (reqRepo req) latest ::
                        (tr ++ [ApiCall.createTree (reqOwner req) (reqRepo req) baseTree tree]),
                    ApiCall.createCommit (reqOwner req) (reqRepo req) (reqMessage req)
                      newTreeSha [latest],
                    by simp, hcommit, rfl⟩
                · rename_i newCommitSha hcommit
                  split at h
                  · rename_i e hupd
                    injection h with h1 h2
                    subst h1; subst h2
                    refine ⟨e,
                      ApiCall.getRef (reqOwner req) (reqRepo req) ("heads/" ++ reqBranch req) ::
                        ApiCall.getCommit (reqOwner req) (reqRepo req) latest ::
                          (tr ++ [ApiCall.createTree (reqOwner req) (reqRepo req) baseTree tree,
                            ApiCall.createCommit (reqOwner req) (reqRepo req) (reqMessage req)
                              newTreeSha [latest]]),
                      ApiCall.updateRef (reqOwner req) (reqRepo req) ("heads/" ++ reqBranch req)
                        newCommitSha,
                      by simp, hupd, rfl⟩
                  · rename_i x hupd
                    injection h with h1 h2
                    subst h1
                    simp [isCatchResp2] at hc

/-! ### C1 -/

/-- C1: for every successful upload request (either server variant), the
remote API operations happen in exactly this order: the branch ref is read,
then the base commit is read, then one blob is created per non-skipped file,
then one tree, then one commit, and finally the branch ref is updated — so
the ref update never precedes the commit creation. -/
theorem upload_call_order :
    (∀ (remote : Remote) (req : UploadRequest) c u sk note trace,
      handleUpload1 remote req = (.success c u sk note, trace) →
      ∃ refCall commCall blobCalls treeCall commitCall updCall,
        trace = refCall :: commCall ::
          (blobCalls ++ [treeCall, commitCall, updCall]) ∧
        (∃ o r rf, refCall = .getRef o r rf) ∧
        (∃ o r s2, commCall = .getCommit o r s2) ∧
        blobCalls = (keptFiles isSensitive1 req.files).map
          (blobCall (reqOwner req) (reqRepo req)) ∧
        (∀ b ∈ blobCalls, ∃ o r ct en, b = .createBlob o r ct en) ∧
        (∃ o r bt en, treeCall = .createTree o r bt en) ∧
        (∃ o r m ts ps, commitCall = .createCommit o r m ts ps) ∧
        (∃ o r rf sha2, updCall = .updateRef o r rf sha2)) ∧
    (∀ (remote : Remote) (merr : Option MulterError) (req : UploadRequest)
        c u sk note trace,
      handleUpload2 remote merr req = (.success c u sk note, trace) →
      ∃ refCall commCall blobCalls treeCall commitCall updCall,
        trace = refCall :: commCall ::
          (blobCalls ++ [treeCall, commitCall, updCall]) ∧
        (∃ o r rf, refCall = .getRef o r rf) ∧
        (∃ o r s2, commCall = .getCommit o r s2) ∧
        blobCalls = (keptFiles isSensitive2 req.files).map
          (blobCall (reqOwner req) (reqRepo req)) ∧
        (∀ b ∈ blobCalls, ∃ o r ct en, b = .createBlob o r ct en) ∧
        (∃ o r bt en, treeCall = .createTree o r bt en) ∧
        (∃ o r m ts ps, commitCall = .createCommit o r m ts ps) ∧
        (∃ o r rf sha2, updCall = .updateRef o r rf sha2)) := by
  constructor
  · intro remote req c u sk note trace h
    obtain ⟨latest, baseTree, newTreeSha, href, hcom, hblobs, htree, hcommit,
      hupd, hu, hsk, hne, htrace⟩ := handleUpload1_ok remote req c u sk note trace h
    refine ⟨_, _, _, _, _, _, htrace, ⟨_, _, _, rfl⟩, ⟨_, _, _, rfl⟩, rfl,
      ?_, ⟨_, _, _, _, rfl⟩, ⟨_, _, _, _, _, rfl⟩, ⟨_, _, _, _, rfl⟩⟩
    intro b hb
    obtain ⟨f, hf, hfb⟩ := List.mem_map.mp hb
    exact ⟨_, _, _, _, hfb.symm⟩
  · intro remote merr req c u sk note trace h
    obtain ⟨latest, baseTree, newTreeSha, href, hcom, hblobs, htree, hcommit,
      hupd, hu, hsk, hne, htrace⟩ :=
      handleUpload2_ok remote merr req c u sk note trace h
    refine ⟨_, _, _, _, _, _, htrace, ⟨_, _, _, rfl⟩, ⟨_, _, _, rfl⟩, rfl,
      ?_, ⟨_, _, _, _, rfl⟩, ⟨_, _, _, _, _, rfl⟩, ⟨_, _, _, _, rfl⟩⟩
    intro b hb
    obtain ⟨f, hf, hfb⟩ := List.mem_map.mp hb
    exact ⟨_, _, _, _, hfb.symm⟩

/-- Witness for C1 at a concrete request and oracle. -/
theorem upload_call_order_witness :
    (∃ refCall commCall blobCalls treeCall commitCall updCall,
      demoTrace = refCall :: commCall ::
        (blobCalls ++ [treeCall, commitCall, updCall]) ∧
      (∃ o r rf, refCall = ApiCall.getRef o r rf) ∧
      (∃ o r s2, commCall = ApiCall.getCommit o r s2) ∧
      blobCalls = (keptFiles isSensitive1 demoReq.files).map
        (blobCall (reqOwner demoReq) (reqRepo demoReq)) ∧
      (∀ b ∈ blobCalls, ∃ o r ct en, b = ApiCall.createBlob o r ct en) ∧
      (∃ o r bt en, treeCall = ApiCall.createTree o r bt en) ∧
      (∃ o r m ts ps, commitCall = ApiCall.createCommit o r m ts ps) ∧
      (∃ o r rf sha2, updCall = ApiCall.updateRef o r rf sha2)) ∧
    (∃ refCall commCall blobCalls treeCall commitCall updCall,
      demoTrace = refCall :: commCall ::
        (blobCalls ++ [treeCall, commitCall, updCall]) ∧
      (∃ o r rf, refCall = ApiCall.getRef o r rf) ∧
      (∃ o r s2, commCall = ApiCall.getCommit o r s2) ∧
      blobCalls = (keptFiles isSensitive2 demoReq.files).map
        (blobCall (reqOwner demoReq) (reqRepo demoReq)) ∧
      (∀ b ∈ blobCalls, ∃ o r ct en, b = ApiCall.createBlob o r ct en) ∧
      (∃ o r bt en, treeCall = ApiCall.createTree o r bt en) ∧
      (∃ o r m ts ps, commitCall = ApiCall.createCommit o r m ts ps) ∧
      (∃ o r rf sha2, updCall = ApiCall.updateRef o r rf sha2)) :=
  ⟨upload_call_order.1 demoRemote demoReq "s" 1 [] (some demoNote) demoTrace
      (by decide),
   upload_call_order.2 demoRemote none demoReq "s" 1 [] none demoTrace
      (by decide)⟩

/-! ### Small helpers shared by several claims -/

theorem kept_skipped_length (p : String → Bool) (files : List UFile) :
    (keptFiles p files).length + (skippedNames p files).length =
      files.length := by
  induction files with
  | nil => simp [keptFiles, skippedNames]
  | cons f fs ih =>
    by_cases hp : p (normName f) = true
    · simp [keptFiles, skippedNames, List.filter_cons, hp] at ih ⊢
      omega
    · simp [keptFiles, skippedNames, List.filter_cons, hp] at ih ⊢
      omega

theorem string_append_cancel (s a b : String) (h : s ++ a = s ++ b) :
    a = b := by
  have hd := congrArg String.data h
  simp only [String.data_append] at hd
  have hd2 := List.append_cancel_left hd
  cases a
  cases b
  exact congrArg String.mk hd2

/-! ### C4 -/

/-- C4 as stated is false: a successful single-file upload performs six
remote calls, not five. -/
theorem network_call_count_counterexample :
    (handleUpload1 demoRemote demoReq).1 =
      Response.success "s" 1 [] (some demoNote) ∧
    (handleUpload1 demoRemote demoReq).2.length = 6 ∧ (6 : Nat) ≠ 5 :=
  ⟨by decide, by decide, by decide⟩

/-- C4 amended: a successful upload (either variant) performs exactly
`5 + k` sequential remote calls, where `k ≥ 1` is the number of non-skipped
files (the branch-tip resolution alone takes two read calls). -/
theorem network_call_count :
    (∀ (remote : Remote) (req : UploadRequest) c u sk note trace,
      handleUpload1 remote req = (.success c u sk note, trace) →
      trace.length = 5 + (keptFiles isSensitive1 req.files).length ∧
      1 ≤ (keptFiles isSensitive1 req.files).length) ∧
    (∀ (remote : Remote) (merr : Option MulterError) (req : UploadRequest)
        c u sk note trace,
      handleUpload2 remote merr req = (.success c u sk note, trace) →
      trace.length = 5 + (keptFiles isSensitive2 req.files).length ∧
      1 ≤ (keptFiles isSensitive2 req.files).length) := by
  constructor
  · intro remote req c u sk note trace h
    obtain ⟨latest, baseTree, newTreeSha, href, hcom, hblobs, htree, hcommit,
      hupd, hu, hsk, hne, htrace⟩ :=
      handleUpload1_ok remote req c u sk note trace h
    constructor
    · rw [htrace]
      simp [List.length_append]
      omega
    · have := List.length_pos.mpr hne
      omega
  · intro remote merr req c u sk note trace h
    obtain ⟨latest, baseTree, newTreeSha, href, hcom, hblobs, htree, hcommit,
      hupd, hu, hsk, hne, htrace⟩ :=
      handleUpload2_ok remote merr req c u sk note trace h
    constructor
    · rw [htrace]
      simp [List.length_append]
      omega
    · have := List.length_pos.mpr hne
      omega

/-- Witness for the amended C4 at a concrete request and oracle. -/
theorem network_call_count_witness :
    (demoTrace.length = 5 + (keptFiles isSensitive1 demoReq.files).length ∧
     1 ≤ (keptFiles isSensitive1 demoReq.files).length) ∧
    (demoTrace.length = 5 + (keptFiles isSensitive2 demoReq.files).length ∧
     1 ≤ (keptFiles isSensitive2 demoReq.files).length) :=
  ⟨network_call_count.1 demoRemote demoReq "s" 1 [] (some demoNote) demoTrace
     (by decide),
   network_call_count.2 demoRemote none demoReq "s" 1 [] none demoTrace
     (by decide)⟩

/-! ### C5 -/

/-- C5: on every successful upload (either variant) the new commit points at
the newly created tree, its sole parent is the branch tip resolved by the
initial ref read, and the branch ref is advanced to exactly the new commit
sha reported in the response. -/
theorem commit_parents_and_ref :
    (∀ (remote : Remote) (req : UploadRequest) c u sk note trace,
      handleUpload1 remote req = (.success c u sk note, trace) →
      ∃ latest baseTree newTreeSha,
        remote (.getRef (reqOwner req) (reqRepo req)
          ("heads/" ++ reqBranch req)) = .ok latest ∧
        remote (.createTree (reqOwner req) (reqRepo req) baseTree
          ((keptFiles isSensitive1 req.files).map
            (entryOf remote (reqOwner req) (reqRepo req) (reqBasePath req)))) =
          .ok newTreeSha ∧
        remote (.createCommit (reqOwner req) (reqRepo req) (reqMessage req)
          newTreeSha [latest]) = .ok c ∧
        ApiCall.createCommit (reqOwner req) (reqRepo req) (reqMessage req)
          newTreeSha [latest] ∈ trace ∧
        ApiCall.updateRef (reqOwner req) (reqRepo req)
          ("heads/" ++ reqBranch req) c ∈ trace) ∧
    (∀ (remote : Remote) (merr : Option MulterError) (req : UploadRequest)
        c u sk note trace,
      handleUpload2 remote merr req = (.success c u sk note, trace) →
      ∃ latest baseTree newTreeSha,
        remote (.getRef (reqOwner req) (reqRepo req)
          ("heads/" ++ reqBranch req)) = .ok latest ∧
        remote (.createTree (reqOwner req) (reqRepo req) baseTree
          ((keptFiles isSensitive2 req.files).map
            (entryOf remote (reqOwner req) (reqRepo req) (reqBasePath req)))) =
          .ok newTreeSha ∧
        remote (.createCommit (reqOwner req) (reqRepo req) (reqMessage req)
          newTreeSha [latest]) = .ok c ∧
        ApiCall.createCommit (reqOwner req) (reqRepo req) (reqMessage req)
          newTreeSha [latest] ∈ trace ∧
        ApiCall.updateRef (reqOwner req) (reqRepo req)
          ("heads/" ++ reqBranch req) c ∈ trace) := by
  constructor
  · intro remote req c u sk note trace h
    obtain ⟨latest, baseTree, newTreeSha, href, hcom, hblobs, htree, hcommit,
      hupd, hu, hsk, hne, htrace⟩ :=
      handleUpload1_ok remote req c u sk note trace h
    exact ⟨latest, baseTree, newTreeSha, href, htree, hcommit,
      by rw [htrace]; simp, by rw [htrace]; simp⟩
  · intro remote merr req c u sk note trace h
    obtain ⟨latest, baseTree, newTreeSha, href, hcom, hblobs, htree, hcommit,
      hupd, hu, hsk, hne, htrace⟩ :=
      handleUpload2_ok remote merr req c u sk note trace h
    exact ⟨latest, baseTree, newTreeSha, href, htree, hcommit,
      by rw [htrace]; simp, by rw [htrace]; simp⟩

/-- Witness for C5 at a concrete request and oracle. -/
theorem commit_parents_and_ref_witness :
    (∃ latest baseTree newTreeSha,
      demoRemote (.getRef (reqOwner demoReq) (reqRepo demoReq)
        ("heads/" ++ reqBranch demoReq)) = .ok latest ∧
      demoRemote (.createTree (reqOwner demoReq) (reqRepo demoReq) baseTree
        ((keptFiles isSensitive1 demoReq.files).map
          (entryOf demoRemote (reqOwner demoReq) (reqRepo demoReq)
            (reqBasePath demoReq)))) = .ok newTreeSha ∧
      demoRemote (.createCommit (reqOwner demoReq) (reqRepo demoReq)
        (reqMessage demoReq) newTreeSha [latest]) = .ok "s" ∧
      ApiCall.createCommit (reqOwner demoReq) (reqRepo demoReq)
        (reqMessage demoReq) newTreeSha [latest] ∈ demoTrace ∧
      ApiCall.updateRef (reqOwner demoReq) (reqRepo demoReq)
        ("heads/" ++ reqBranch demoReq) "s" ∈ demoTrace) ∧
    (∃ latest baseTree newTreeSha,
      demoRemote (.getRef (reqOwner demoReq) (reqRepo demoReq)
        ("heads/" ++ reqBranch demoReq)) = .ok latest ∧
      demoRemote (.createTree (reqOwner demoReq) (reqRepo demoReq) baseTree
        ((keptFiles isSensitive2 demoReq.files).map
          (entryOf demoRemote (reqOwner demoReq) (reqRepo demoReq)
            (reqBasePath demoReq)))) = .ok newTreeSha ∧
      demoRemote (.createCommit (reqOwner demoReq) (reqRepo demoReq)
        (reqMessage demoReq) newTreeSha [latest]) = .ok "s" ∧
      ApiCall.createCommit (reqOwner demoReq) (reqRepo demoReq)
        (reqMessage demoReq) newTreeSha [latest] ∈ demoTrace ∧
      ApiCall.updateRef (reqOwner demoReq) (reqRepo demoReq)
        ("heads/" ++ reqBranch demoReq) "s" ∈ demoTrace) :=
  ⟨commit_parents_and_ref.1 demoRemote demoReq "s" 1 [] (some demoNote)
     demoTrace (by decide),
   commit_parents_and_ref.2 demoRemote none demoReq "s" 1 [] none demoTrace
     (by decide)⟩

/-! ### C6 -/

/-- C6: on every successful upload (either variant) the tree is created with
`base_tree` equal to the tree sha of the resolved tip commit, and its entries
are exactly one blob entry per non-skipped file, at path `basePath` followed
by the file's normalized name, with mode 100644 and the sha returned by that
file's blob creation. -/
theorem tree_construction :
    (∀ (remote : Remote) (req : UploadRequest) c u sk note trace,
      handleUpload1 remote req = (.success c u sk note, trace) →
      ∃ latest baseTree,
        remote (.getRef (reqOwner req) (reqRepo req)
          ("heads/" ++ reqBranch req)) = .ok latest ∧
        remote (.getCommit (reqOwner req) (reqRepo req) latest) =
          .ok baseTree ∧
        ApiCall.createTree (reqOwner req) (reqRepo req) baseTree
          ((keptFiles isSensitive1 req.files).map
            (entryOf remote (reqOwner req) (reqRepo req) (reqBasePath req)))
          ∈ trace ∧
        ∀ f ∈ keptFiles isSensitive1 req.files,
          ∃ sha2,
            remote (blobCall (reqOwner req) (reqRepo req) f) = .ok sha2 ∧
            entryOf remote (reqOwner req) (reqRepo req) (reqBasePath req) f =
              { path := reqBasePath req ++ normName f, mode := "100644",
                type := "blob", sha := sha2 }) ∧
    (∀ (remote : Remote) (merr : Option MulterError) (req : UploadRequest)
        c u sk note trace,
      handleUpload2 remote merr req = (.success c u sk note, trace) →
      ∃ latest baseTree,
        remote (.getRef (reqOwner req) (reqRepo req)
          ("heads/" ++ reqBranch req)) = .ok latest ∧
        remote (.getCommit (reqOwner req) (reqRepo req) latest) =
          .ok baseTree ∧
        ApiCall.createTree (reqOwner req) (reqRepo req) baseTree
          ((keptFiles isSensitive2 req.files).map
            (entryOf remote (reqOwner req) (reqRepo req) (reqBasePath req)))
          ∈ trace ∧
        ∀ f ∈ keptFiles isSensitive2 req.files,
          ∃ sha2,
            remote (blobCall (reqOwner req) (reqRepo req) f) = .ok sha2 ∧
            entryOf remote (reqOwner req) (reqRepo req) (reqBasePath req) f =
              { path := reqBasePath req ++ normName f, mode := "100644",
                type := "blob", sha := sha2 }) := by
  constructor
  · intro remote req c u sk note trace h
    obtain ⟨latest, baseTree, newTreeSha, href, hcom, hblobs, htree, hcommit,
      hupd, hu, hsk, hne, htrace⟩ :=
      handleUpload1_ok remote req c u sk note trace h
    refine ⟨latest, baseTree, href, hcom, by rw [htrace]; simp, ?_⟩
    intro f hf
    have hok := hblobs f hf
    cases hblob : remote (blobCall (reqOwner req) (reqRepo req) f) with
    | error e => rw [hblob] at hok; simp [Except.isOk, Except.toBool] at hok
    | ok sha2 =>
      exact ⟨sha2, rfl, by simp [entryOf, entrySha, hblob]⟩
  · intro remote merr req c u sk note trace h
    obtain ⟨latest, baseTree, newTreeSha, href, hcom, hblobs, htree, hcommit,
      hupd, hu, hsk, hne, htrace⟩ :=
      handleUpload2_ok remote merr req c u sk note trace h
    refine ⟨latest, baseTree, href, hcom, by rw [htrace]; simp, ?_⟩
    intro f hf
    have hok := hblobs f hf
    cases hblob : remote (blobCall (reqOwner req) (reqRepo req) f) with
    | error e => rw [hblob] at hok; simp [Except.isOk, Except.toBool] at hok
    | ok sha2 =>
      exact ⟨sha2, rfl, by simp [entryOf, entrySha, hblob]⟩

/-- Witness for C6 at a concrete request and oracle. -/
theorem tree_construction_witness :
    (∃ latest baseTree,
      demoRemote (.getRef (reqOwner demoReq) (reqRepo demoReq)
        ("heads/" ++ reqBranch demoReq)) = .ok latest ∧
      demoRemote (.getCommit (reqOwner demoReq) (reqRepo demoReq) latest) =
        .ok baseTree ∧
      ApiCall.createTree (reqOwner demoReq) (reqRepo demoReq) baseTree
        ((keptFiles isSensitive1 demoReq.files).map
          (entryOf demoRemote (reqOwner demoReq) (reqRepo demoReq)
            (reqBasePath demoReq))) ∈ demoTrace ∧
      ∀ f ∈ keptFiles isSensitive1 demoReq.files,
        ∃ sha2,
          demoRemote (blobCall (reqOwner demoReq) (reqRepo demoReq) f) =
            .ok sha2 ∧
          entryOf demoRemote (reqOwner demoReq) (reqRepo demoReq)
            (reqBasePath demoReq) f =
            { path := reqBasePath demoReq ++ normName f, mode := "100644",
              type := "blob", sha := sha2 }) ∧
    (∃ latest baseTree,
      demoRemote (.getRef (reqOwner demoReq) (reqRepo demoReq)
        ("heads/" ++ reqBranch demoReq)) = .ok latest ∧
      demoRemote (.getCommit (reqOwner demoReq) (reqRepo demoReq) latest) =
        .ok baseTree ∧
      ApiCall.createTree (reqOwner demoReq) (reqRepo demoReq) baseTree
        ((keptFiles isSensitive2 demoReq.files).map
          (entryOf demoRemote (reqOwner demoReq) (reqRepo demoReq)
            (reqBasePath demoReq))) ∈ demoTrace ∧
      ∀ f ∈ keptFiles isSensitive2 demoReq.files,
        ∃ sha2,
          demoRemote (blobCall (reqOwner demoReq) (reqRepo demoReq) f) =
            .ok sha2 ∧
          entryOf demoRemote (reqOwner demoReq) (reqRepo demoReq)
            (reqBasePath demoReq) f =
            { path := reqBasePath demoReq ++ normName f, mode := "100644",
              type := "blob", sha := sha2 }) :=
  ⟨tree_construction.1 demoRemote demoReq "s" 1 [] (some demoNote) demoTrace
     (by decide),
   tree_construction.2 demoRemote none demoReq "s" 1 [] none demoTrace
     (by decide)⟩

/-! ### C9 -/

/-- C9: on every successful upload response (either variant), the uploaded
count plus the number of skipped names equals the number of submitted files,
the uploaded count is at least 1, every skipped filename appears in the
skipped list, and no skipped file contributes an entry to the created tree. -/
theorem upload_skip_accounting :
    (∀ (remote : Remote) (req : UploadRequest) c u sk note trace,
      handleUpload1 remote req = (.success c u sk note, trace) →
      u + sk.length = req.files.length ∧
      1 ≤ u ∧
      (∀ f ∈ req.files, isSensitive1 (normName f) = true → normName f ∈ sk) ∧
      (∀ o2 r2 bt en, ApiCall.createTree o2 r2 bt en ∈ trace →
        ∀ f ∈ req.files, isSensitive1 (normName f) = true →
          ∀ en2 ∈ en, en2.path ≠ reqBasePath req ++ normName f)) ∧
    (∀ (remote : Remote) (merr : Option MulterError) (req : UploadRequest)
        c u sk note trace,
      handleUpload2 remote merr req = (.success c u sk note, trace) →
      u + sk.length = req.files.length ∧
      1 ≤ u ∧
      (∀ f ∈ req.files, isSensitive2 (normName f) = true → normName f ∈ sk) ∧
      (∀ o2 r2 bt en, ApiCall.createTree o2 r2 bt en ∈ trace →
        ∀ f ∈ req.files, isSensitive2 (normName f) = true →
          ∀ en2 ∈ en, en2.path ≠ reqBasePath req ++ normName f)) := by
  constructor
  · intro remote req c u sk note trace h
    obtain ⟨latest, baseTree, newTreeSha, href, hcom, hblobs, htree, hcommit,
      hupd, hu, hsk, hne, htrace⟩ :=
      handleUpload1_ok remote req c u sk note trace h
    subst hu; subst hsk
    refine ⟨kept_skipped_length _ _, ?_, ?_, ?_⟩
    · have := List.length_pos.mpr hne
      omega
    · intro f hf hsens
      simp only [skippedNames, List.mem_filter]
      exact ⟨List.mem_map_of_mem _ hf, hsens⟩
    · intro o2 r2 bt en hmem f hf hsens en2 hen2 heqpath
      rw [htrace] at hmem
      simp [blobCall] at hmem
      obtain ⟨ho, hr, hbt, hen⟩ := hmem
      subst hen
      obtain ⟨g, hg, hge⟩ := List.mem_map.mp hen2
      have hpath : en2.path = reqBasePath req ++ normName g := by
        rw [← hge]; rfl
      have hnn : normName g = normName f :=
        string_append_cancel _ _ _ (hpath ▸ heqpath)
      have hgk : isSensitive1 (normName g) = false := by
        simp only [keptFiles, List.mem_filter] at hg
        simpa using hg.2
      rw [hnn, hsens] at hgk
      simp at hgk
  · intro remote merr req c u sk note trace h
    obtain ⟨latest, baseTree, newTreeSha, href, hcom, hblobs, htree, hcommit,
      hupd, hu, hsk, hne, htrace⟩ :=
      handleUpload2_ok remote merr req c u sk note trace h
    subst hu; subst hsk
    refine ⟨kept_skipped_length _ _, ?_, ?_, ?_⟩
    · have := List.length_pos.mpr hne
      omega
    · intro f hf hsens
      simp only [skippedNames, List.mem_filter]
      exact ⟨List.mem_map_of_mem _ hf, hsens⟩
    · intro o2 r2 bt en hmem f hf hsens en2 hen2 heqpath
      rw [htrace] at hmem
      simp [blobCall] at hmem
      obtain ⟨ho, hr, hbt, hen⟩ := hmem
      subst hen
      obtain ⟨g, hg, hge⟩ := List.mem_map.mp hen2
      have hpath : en2.path = reqBasePath req ++ normName g := by
        rw [← hge]; rfl
      have hnn : normName g = normName f :=
        string_append_cancel _ _ _ (hpath ▸ heqpath)
      have hgk : isSensitive2 (normName g) = false := by
        simp only [keptFiles, List.mem_filter] at hg
        simpa using hg.2
      rw [hnn, hsens] at hgk
      simp at hgk

/-- Witness for C9 at a concrete request and oracle. -/
theorem upload_skip_accounting_witness :
    (1 + ([] : List String).length = demoReq.files.length ∧
     1 ≤ 1 ∧
     (∀ f ∈ demoReq.files, isSensitive1 (normName f) = true →
        normName f ∈ ([] : List String)) ∧
     (∀ o2 r2 bt en, ApiCall.createTree o2 r2 bt en ∈ demoTrace →
        ∀ f ∈ demoReq.files, isSensitive1 (normName f) = true →
          ∀ en2 ∈ en, en2.path ≠ reqBasePath demoReq ++ normName f)) ∧
    (1 + ([] : List String).length = demoReq.files.length ∧
     1 ≤ 1 ∧
     (∀ f ∈ demoReq.files, isSensitive2 (normName f) = true →
        normName f ∈ ([] : List String)) ∧
     (∀ o2 r2 bt en, ApiCall.createTree o2 r2 bt en ∈ demoTrace →
        ∀ f ∈ demoReq.files, isSensitive2 (normName f) = true →
          ∀ en2 ∈ en, en2.path ≠ reqBasePath demoReq ++ normName f)) :=
  ⟨upload_skip_accounting.1 demoRemote demoReq "s" 1 [] (some demoNote)
     demoTrace (by decide),
   upload_skip_accounting.2 demoRemote none demoReq "s" 1 [] none demoTrace
     (by decide)⟩

/-! ### C2 -/

/-- C2 as stated is false: the first variant's catch block special-cases an
error whose `code` is `LIMIT_FILE_SIZE` and answers 413, although the error
carries no HTTP status at all (so the claim demands 500). -/
theorem error_status_forwarding_counterexample :
    limitError.status = none ∧
    handleUpload1 limitRemote demoReq =
      (Response.err 413 "LIMIT_FILE_SIZE"
         "Ada file lebih dari 100MB. Tolong kecilin dulu.",
       [ApiCall.getRef "o" "r" "heads/main"]) ∧
    (Response.err 413 "LIMIT_FILE_SIZE"
       "Ada file lebih dari 100MB. Tolong kecilin dulu.").statusOf ≠ 500 :=
  ⟨rfl, by decide, by decide⟩

/-- C2 amended: every failure response produced by a catch block forwards the
remote error's HTTP status when it lies in [400, 600) and answers 500
otherwise — except that the first variant answers 413 to an error whose
`code` is `LIMIT_FILE_SIZE`; the failing call is the last call of the trace
(no retry or rollback follows it), and the remote message is attached. -/
theorem error_status_forwarding :
    (∀ (remote : Remote) (req : UploadRequest) resp trace,
      handleUpload1 remote req = (resp, trace) → isCatchResp1 resp = true →
      ∃ e pre cl, trace = pre ++ [cl] ∧ remote cl = .error e ∧
        resp = catchResponse1 e ∧
        resp.statusOf =
          (if e.code = some "LIMIT_FILE_SIZE" then 413
           else if 400 ≤ jsStatusOr500 e.status ∧ jsStatusOr500 e.status < 600
           then jsStatusOr500 e.status else 500)) ∧
    (∀ (remote : Remote) (merr : Option MulterError) (req : UploadRequest)
        resp trace,
      handleUpload2 remote merr req = (resp, trace) →
      isCatchResp2 resp = true →
      ∃ e pre cl, trace = pre ++ [cl] ∧ remote cl = .error e ∧
        resp = catchResponse2 e ∧
        resp.statusOf =
          (if 400 ≤ jsStatusOr500 e.status ∧ jsStatusOr500 e.status < 600
           then jsStatusOr500 e.status else 500)) := by
  constructor
  · intro remote req resp trace h hc
    obtain ⟨e, pre, cl, htr, hcl, hresp⟩ :=
      handleUpload1_catch remote req resp trace h hc
    refine ⟨e, pre, cl, htr, hcl, hresp, ?_⟩
    rw [hresp, statusOf_catch1]
    unfold forwardedStatus
    rfl
  · intro remote merr req resp trace h hc
    obtain ⟨e, pre, cl, htr, hcl, hresp⟩ :=
      handleUpload2_catch remote merr req resp trace h hc
    refine ⟨e, pre, cl, htr, hcl, hresp, ?_⟩
    rw [hresp, statusOf_catch2]
    unfold forwardedStatus
    rfl

/-- Witness for the amended C2 at a concrete request and oracle. -/
theorem error_status_forwarding_witness :
    (∃ e pre cl,
      [ApiCall.getRef "o" "r" "heads/main"] = pre ++ [cl] ∧
      errRemote cl = .error e ∧
      Response.uploadFailed 404 "Not Found" (some 404) (some "Not Found") =
        catchResponse1 e ∧
      (Response.uploadFailed 404 "Not Found" (some 404)
          (some "Not Found")).statusOf =
        (if e.code = some "LIMIT_FILE_SIZE" then 413
         else if 400 ≤ jsStatusOr500 e.status ∧ jsStatusOr500 e.status < 600
         then jsStatusOr500 e.status else 500)) ∧
    (∃ e pre cl,
      [ApiCall.getRef "o" "r" "heads/main"] = pre ++ [cl] ∧
      errRemote cl = .error e ∧
      Response.uploadFailed 404 "Not Found" (some 404) (some "Not Found") =
        catchResponse2 e ∧
      (Response.uploadFailed 404 "Not Found" (some 404)
          (some "Not Found")).statusOf =
        (if 400 ≤ jsStatusOr500 e.status ∧ jsStatusOr500 e.status < 600
         then jsStatusOr500 e.status else 500)) :=
  ⟨error_status_forwarding.1 errRemote demoReq
     (Response.uploadFailed 404 "Not Found" (some 404) (some "Not Found"))
     [ApiCall.getRef "o" "r" "heads/main"] (by decide) (by decide),
   error_status_forwarding.2 errRemote none demoReq
     (Response.uploadFailed 404 "Not Found" (some 404) (some "Not Found"))
     [ApiCall.getRef "o" "r" "heads/main"] (by decide) (by decide)⟩

/-! ### C7 -/

/-- C7: the handler reads and writes no server-global state, so serving a
batch of requests is the pointwise image of the handler: the response (and
call trace) of the last request of any batch depends only on that request
and the remote service, not on the requests served before it, and serving
distributes over concatenation of request sequences. -/
theorem request_scoped_state (remote : Remote)
    (reqs1 reqs2 : List UploadRequest) (req : UploadRequest) :
    (serveAll remote (reqs1 ++ [req])).getLast? =
      some (handleUpload1 remote req) ∧
    serveAll remote (reqs1 ++ reqs2) =
      serveAll remote reqs1 ++ serveAll remote reqs2 := by
  constructor
  · simp [serveAll]
  · simp [serveAll]

/-! ### C8 -/

/-- C8: validation precedes all remote writes (either variant): missing
token/owner/repo yields 400 MISSING_FIELDS with no remote call, an empty
file list yields 400 NO_FILES with no remote call, and a batch in which
every file is skipped yields 400 ALL_SKIPPED listing the skipped names,
after only the two read calls — no blob, tree or commit is created and the
ref is not moved. -/
theorem validation_before_writes :
    (∀ (remote : Remote) (req : UploadRequest),
      (reqToken req = "" ∨ reqOwner req = "" ∨ reqRepo req = "" →
        handleUpload1 remote req =
          (.err 400 "MISSING_FIELDS" "Token, Owner, dan Repo wajib diisi.",
           [])) ∧
      (reqToken req ≠ "" → reqOwner req ≠ "" → reqRepo req ≠ "" →
        req.files = [] →
        handleUpload1 remote req =
          (.err 400 "NO_FILES" "Lu belum milih file apa pun.", [])) ∧
      (∀ latest baseTree,
        reqToken req ≠ "" → reqOwner req ≠ "" → reqRepo req ≠ "" →
        req.files ≠ [] →
        (∀ f ∈ req.files, isSensitive1 (normName f) = true) →
        remote (.getRef (reqOwner req) (reqRepo req)
          ("heads/" ++ reqBranch req)) = .ok latest →
        remote (.getCommit (reqOwner req) (reqRepo req) latest) =
          .ok baseTree →
        handleUpload1 remote req =
          (.errSkipped 400 "ALL_SKIPPED"
             "Semua file ke-skip (karena dianggap sensitif)."
             (req.files.map normName),
           [.getRef (reqOwner req) (reqRepo req) ("heads/" ++ reqBranch req),
            .getCommit (reqOwner req) (reqRepo req) latest]))) ∧
    (∀ (remote : Remote) (req : UploadRequest),
      (reqToken req = "" ∨ reqOwner req = "" ∨ reqRepo req = "" →
        handleUpload2 remote none req =
          (.err 400 "MISSING_FIELDS" "Token/Owner/Repo wajib diisi.", [])) ∧
      (reqToken req ≠ "" → reqOwner req ≠ "" → reqRepo req ≠ "" →
        req.files = [] →
        handleUpload2 remote none req =
          (.err 400 "NO_FILES" "Pilih minimal 1 file.", [])) ∧
      (∀ latest baseTree,
        reqToken req ≠ "" → reqOwner req ≠ "" → reqRepo req ≠ "" →
        req.files ≠ [] →
        (∀ f ∈ req.files, isSensitive2 (normName f) = true) →
        remote (.getRef (reqOwner req) (reqRepo req)
          ("heads/" ++ reqBranch req)) = .ok latest →
        remote (.getCommit (reqOwner req) (reqRepo req) latest) =
          .ok baseTree →
        handleUpload2 remote none req =
          (.errSkipped 400 "ALL_SKIPPED"
             "Semua file ke-skip (misal .env/session/auth_info)."
             (req.files.map normName),
           [.getRef (reqOwner req) (reqRepo req) ("heads/" ++ reqBranch req),
            .getCommit (reqOwner req) (reqRepo req) latest]))) := by
  constructor
  · intro remote req
    refine ⟨?_, ?_, ?_⟩
    · intro hmf
      have hb : (reqToken req == "" || reqOwner req == "" ||
          reqRepo req == "") = true := by
        rcases hmf with h | h | h <;> simp [h]
      simp [handleUpload1, hb]
    · intro ht ho hr hfs
      have hb : (reqToken req == "" || reqOwner req == "" ||
          reqRepo req == "") = false := by
        simp [ht, ho, hr]
      simp [handleUpload1, hb, hfs]
    · intro latest baseTree ht ho hr hfs hall href hcom
      have hb : (reqToken req == "" || reqOwner req == "" ||
          reqRepo req == "") = false := by
        simp [ht, ho, hr]
      have hie : req.files.isEmpty = false := by
        simp [List.isEmpty_iff, hfs]
      simp [handleUpload1, hb, hie, href, hcom,
        processFiles1_all_skipped remote (reqOwner req) (reqRepo req)
          (reqBasePath req) req.files hall]
  · intro remote req
    refine ⟨?_, ?_, ?_⟩
    · intro hmf
      have hb : (reqToken req == "" || reqOwner req == "" ||
          reqRepo req == "") = true := by
        rcases hmf with h | h | h <;> simp [h]
      simp [handleUpload2, hb]
    · intro ht ho hr hfs
      have hb : (reqToken req == "" || reqOwner req == "" ||
          reqRepo req == "") = false := by
        simp [ht, ho, hr]
      simp [handleUpload2, hb, hfs]
    · intro latest baseTree ht ho hr hfs hall href hcom
      have hb : (reqToken req == "" || reqOwner req == "" ||
          reqRepo req == "") = false := by
        simp [ht, ho, hr]
      have hie : req.files.isEmpty = false := by
        simp [List.isEmpty_iff, hfs]
      simp [handleUpload2, hb, hie, href, hcom,
        processFiles2_all_skipped remote (reqOwner req) (reqRepo req)
          (reqBasePath req) req.files hall]

/-- Witness for C8 at concrete requests and oracle. -/
theorem validation_before_writes_witness :
    handleUpload1 demoRemote demoReqMissing =
      (.err 400 "MISSING_FIELDS" "Token, Owner, dan Repo wajib diisi.",
       []) ∧
    handleUpload1 demoRemote demoReqNoFiles =
      (.err 400 "NO_FILES" "Lu belum milih file apa pun.", []) ∧
    handleUpload1 demoRemote demoReqAllSkipped =
      (.errSkipped 400 "ALL_SKIPPED"
         "Semua file ke-skip (karena dianggap sensitif)."
         (demoReqAllSkipped.files.map normName),
       [.getRef (reqOwner demoReqAllSkipped) (reqRepo demoReqAllSkipped)
          ("heads/" ++ reqBranch demoReqAllSkipped),
        .getCommit (reqOwner demoReqAllSkipped) (reqRepo demoReqAllSkipped)
          "s"]) ∧
    handleUpload2 demoRemote none demoReqMissing =
      (.err 400 "MISSING_FIELDS" "Token/Owner/Repo wajib diisi.", []) ∧
    handleUpload2 demoRemote none demoReqNoFiles =
      (.err 400 "NO_FILES" "Pilih minimal 1 file.", []) ∧
    handleUpload2 demoRemote none demoReqAllSkipped =
      (.errSkipped 400 "ALL_SKIPPED"
         "Semua file ke-skip (misal .env/session/auth_info)."
         (demoReqAllSkipped.files.map normName),
       [.getRef (reqOwner demoReqAllSkipped) (reqRepo demoReqAllSkipped)
          ("heads/" ++ reqBranch demoReqAllSkipped),
        .getCommit (reqOwner demoReqAllSkipped) (reqRepo demoReqAllSkipped)
          "s"]) :=
  ⟨(validation_before_writes.1 demoRemote demoReqMissing).1
     (Or.inl (by decide)),
   (validation_before_writes.1 demoRemote demoReqNoFiles).2.1
     (by decide) (by decide) (by decide) rfl,
   (validation_before_writes.1 demoRemote demoReqAllSkipped).2.2 "s" "s"
     (by decide) (by decide) (by decide) (by decide) (by decide) rfl rfl,
   (validation_before_writes.2 demoRemote demoReqMissing).1
     (Or.inl (by decide)),
   (validation_before_writes.2 demoRemote demoReqNoFiles).2.1
     (by decide) (by decide) (by decide) rfl,
   (validation_before_writes.2 demoRemote demoReqAllSkipped).2.2 "s" "s"
     (by decide) (by decide) (by decide) (by decide) (by decide) rfl rfl⟩

/-! ### C10 -/

theorem listIsSub_of_listIsPre (pat l : List Char)
    (h : listIsPre pat l = true) : listIsSub pat l = true := by
  cases l with
  | nil => simpa [listIsSub] using h
  | cons c t => simp [listIsSub, h]

/-- The two skip conditions agree on every name: the second variant's extra
`startsWith("auth_info")` disjunct is subsumed by `includes("auth_info")`. -/
theorem sensitive_eq (name : String) : isSensitive1 name = isSensitive2 name := by
  unfold isSensitive1 isSensitive2
  cases hsw : jsStartsWith name "auth_info" with
  | false => simp [hsw]
  | true =>
    have hin : jsIncludes name "auth_info" = true :=
      listIsSub_of_listIsPre _ _ hsw
    simp [hsw, hin]

/-- C10: the sensitive-filename predicates of the two server variants are
extensionally equal: the first variant's condition holds iff the second
variant's condition (with its additional startsWith test) holds. -/
theorem skip_predicates_equivalent (name : String) :
    isSensitive1 name = true ↔ isSensitive2 name = true := by
  rw [sensitive_eq]

/-! ### C3 -/

theorem allA_injective : Function.Injective allA := by
  intro a b h
  have h2 := congrArg (fun s => s.data.length) h
  simp [allA] at h2
  exact h2

theorem listIsPre_session_false (l : List Char) (h : ∀ c ∈ l, c = 'a') :
    listIsPre "session".data l = false := by
  cases l with
  | nil => rfl
  | cons c t =>
    have hc : c = 'a' := h c (by simp)
    subst hc
    have hsd : "session".data = 's' :: "ession".data := rfl
    rw [hsd]
    have hne : (('s' : Char) == 'a') = false := by decide
    simp [listIsPre, hne]

theorem listIsPre_authtail_false (l : List Char) (h : ∀ c ∈ l, c = 'a') :
    listIsPre "uth_info".data l = false := by
  cases l with
  | nil => rfl
  | cons c t =>
    have hc : c = 'a' := h c (by simp)
    subst hc
    have hsd : "uth_info".data = 'u' :: "th_info".data := rfl
    rw [hsd]
    have hne : (('u' : Char) == 'a') = false := by decide
    simp [listIsPre, hne]

theorem listIsPre_auth_false_tail (l : List Char) (h : ∀ c ∈ l, c = 'a') :
    listIsPre "auth_info".data ('a' :: l) = false := by
  have hsd : "auth_info".data = 'a' :: "uth_info".data := rfl
  rw [hsd]
  simp [listIsPre, listIsPre_authtail_false l h]

theorem listIsSub_auth_false (l : List Char) (h : ∀ c ∈ l, c = 'a') :
    listIsSub "auth_info".data l = false := by
  induction l with
  | nil => rfl
  | cons c t ih =>
    have hc : c = 'a' := h c (by simp)
    subst hc
    have hrest : ∀ x ∈ t, x = 'a' := fun x hx => h x (by simp [hx])
    simp [listIsSub, listIsPre_auth_false_tail t hrest, ih hrest]

theorem beq_env_false (l : List Char) (h : ∀ c ∈ l, c = 'a') :
    (String.mk l == ".env") = false := by
  rw [beq_eq_false_iff_ne]
  intro heq
  have hd := congrArg String.data heq
  have henv : (".env").data = ['.', 'e', 'n', 'v'] := rfl
  rw [henv] at hd
  have hd2 : l = ['.', 'e', 'n', 'v'] := hd
  have := h '.' (by rw [hd2]; simp)
  exact absurd this (by decide)

theorem beq_cred_false (l : List Char) (h : ∀ c ∈ l, c = 'a') :
    (String.mk l == "credentials.json") = false := by
  rw [beq_eq_false_iff_ne]
  intro heq
  have hd := congrArg String.data heq
  have hcred : ("credentials.json").data =
      'c' :: "redentials.json".data := rfl
  rw [hcred] at hd
  have hd2 : l = 'c' :: "redentials.json".data := hd
  have := h 'c' (by rw [hd2]; simp)
  exact absurd this (by decide)

theorem isSensitive1_allA (k : Nat) : isSensitive1 (allA k) = false := by
  have hall : ∀ c ∈ (allA k).data, c = 'a' := by
    intro c hc
    exact List.eq_of_mem_replicate hc
  unfold isSensitive1
  have h1 : (allA k == ".env") = false := beq_env_false (allA k).data hall
  have h2 : jsStartsWith (allA k) "session" = false :=
    listIsPre_session_false (allA k).data hall
  have h3 : jsIncludes (allA k) "auth_info" = false :=
    listIsSub_auth_false (allA k).data hall
  have h4 : (allA k == "credentials.json") = false :=
    beq_cred_false (allA k).data hall
  rw [h1, h2, h3, h4]
  rfl

theorem normName_allA (k : Nat) :
    normName { originalname := some (allA k), buffer := [] } = allA k := by
  have hne : allA k ≠ "" := by
    intro h
    have h2 := congrArg (fun s => s.data.length) h
    simp [allA] at h2
  have h1 : jsOr (some (allA k)) "file" = allA k := by
    unfold jsOr
    simp [hne]
  have hch : (if ('a' : Char) = '\\' then '/' else 'a') = 'a' := by decide
  unfold normName
  rw [h1]
  show String.mk ((List.replicate (k + 1) 'a').map
      (fun c => if c = '\\' then '/' else c)) = allA k
  rw [List.map_replicate, hch]
  rfl

/-- C3 as stated is false: no fixed list L can make "names on the list
admitted and all others rejected" describe the filter, because the handler
admits the infinitely many pairwise-distinct names "a", "aa", "aaa", ...,
more than any fixed list holds. -/
theorem sensitive_filter_not_allowlist :
    ¬ ∃ L : List String, ∀ f : UFile,
      (isSensitive1 (normName f) = false ↔ normName f ∈ L) := by
  rintro ⟨L, hL⟩
  have hmem : ∀ k, allA k ∈ L := by
    intro k
    have h := hL { originalname := some (allA k), buffer := [] }
    rw [normName_allA] at h
    exact h.mp (isSensitive1_allA k)
  have hM : ((List.range (L.length + 1)).map allA) ⊆ L := by
    intro x hx
    obtain ⟨k, hk, hke⟩ := List.mem_map.mp hx
    rw [← hke]
    exact hmem k
  have hnd : ((List.range (L.length + 1)).map allA).Nodup :=
    (List.nodup_range _).map allA_injective
  have hlen := (List.subperm_of_subset hnd hM).length_le
  rw [List.length_map, List.length_range] at hlen
  omega

/-- C3 amended: the check is a flat string-match denylist of hardcoded
patterns — a file is skipped iff its backslash-normalized name equals
".env", starts with "session", contains "auth_info", or equals
"credentials.json" (the second variant adds a redundant starts-with
"auth_info" test); every other name is admitted, and the decision depends
only on the normalized name. -/
theorem sensitive_filter_denylist :
    (∀ name, isSensitive1 name = true ↔
      (name = ".env" ∨ jsStartsWith name "session" = true ∨
       jsIncludes name "auth_info" = true ∨ name = "credentials.json")) ∧
    (∀ name, isSensitive2 name = true ↔
      (name = ".env" ∨ jsStartsWith name "session" = true ∨
       jsStartsWith name "auth_info" = true ∨
       jsIncludes name "auth_info" = true ∨ name = "credentials.json")) ∧
    (∀ (remote : Remote) (o2 r2 bp : String) files tree skipped tr,
      processFiles1 remote o2 r2 bp files = .ok (tree, skipped, tr) →
      skipped = skippedNames isSensitive1 files ∧
      tree.length = (keptFiles isSensitive1 files).length) ∧
    (∀ (remote : Remote) (o2 r2 bp : String) files tree skipped tr,
      processFiles2 remote o2 r2 bp files = .ok (tree, skipped, tr) →
      skipped = skippedNames isSensitive2 files ∧
      tree.length = (keptFiles isSensitive2 files).length) := by
  refine ⟨?_, ?_, ?_, ?_⟩
  · intro name
    simp [isSensitive1]
    tauto
  · intro name
    simp [isSensitive2]
    tauto
  · intro remote o2 r2 bp files tree skipped tr h
    obtain ⟨p1, p2, p3, p4⟩ := processFiles1_ok remote o2 r2 bp files
      tree skipped tr h
    exact ⟨p2, by rw [p1, List.length_map]⟩
  · intro remote o2 r2 bp files tree skipped tr h
    obtain ⟨p1, p2, p3, p4⟩ := processFiles2_ok remote o2 r2 bp files
      tree skipped tr h
    exact ⟨p2, by rw [p1, List.length_map]⟩

/-- Witness for the amended C3 at a concrete batch and oracle. -/
theorem sensitive_filter_denylist_witness :
    ([".env"] = skippedNames isSensitive1 demoFilesMixed ∧
     ([{ path := "a.txt", mode := "100644", type := "blob", sha := "s" }] :
        List TreeEntry).length =
       (keptFiles isSensitive1 demoFilesMixed).length) ∧
    ([".env"] = skippedNames isSensitive2 demoFilesMixed ∧
     ([{ path := "a.txt", mode := "100644", type := "blob", sha := "s" }] :
        List TreeEntry).length =
       (keptFiles isSensitive2 demoFilesMixed).length) :=
  ⟨sensitive_filter_denylist.2.2.1 demoRemote "o" "r" "" demoFilesMixed
     [{ path := "a.txt", mode := "100644", type := "blob", sha := "s" }]
     [".env"] [.createBlob "o" "r" "" "base64"] (by decide),
   sensitive_filter_denylist.2.2.2 demoRemote "o" "r" "" demoFilesMixed
     [{ path := "a.txt", mode := "100644", type := "blob", sha := "s" }]
     [".env"] [.createBlob "o" "r" "" "base64"] (by decide)⟩

end GhUploader
